import Mathlib

/-!
Verification of the matching and notification core of the Simhastha
lost-and-found service (`src/app.py`).

The Python source is shallowly embedded:

* `SmartMatcher.calculate_similarity` calls
  `difflib.SequenceMatcher(None, a.lower(), b.lower()).ratio()`.  We embed the
  SequenceMatcher algorithm directly: find the longest common contiguous block
  (ties broken by earliest position in the first string, then in the second,
  which is `find_longest_match`'s documented behaviour), recurse on the two
  unmatched remainders, and return `2 * matched / (len a + len b)` — and `1.0`
  when both strings are empty, as in `difflib._calculate_ratio`.  The junk /
  "popular element" heuristic of SequenceMatcher only activates for strings of
  200 characters or more and is not modelled; for shorter strings the embedding
  is exact (cross-checked against CPython's difflib on exhaustive small inputs).
  Python floats are modelled by exact rationals.
* Python's falsy test on optional report fields (`d.get(k)`) treats a missing
  key, `None` and the empty string alike, so report fields are plain strings
  with `""` for "absent".
* `int(...)` raising `ValueError` is modelled by `pyInt : String → Option Int`
  (`none` = the exception path; Python's underscore digit separators and
  non-ASCII digits are outside the model).
* The recursion in the block-matching procedure is expressed with an explicit
  fuel argument so that every definition is executable by the kernel; the fuel
  `len a + len b + 1` exceeds the recursion depth (each recursive call strictly
  decreases `len a + len b`), so the fuel never runs out.
-/

namespace Simhastha

/-- Length of the longest common prefix of two character lists. -/
def prefLen : List Char → List Char → Nat
  | x :: xs, y :: ys => if x = y then prefLen xs ys + 1 else 0
  | _, _ => 0

/-- All index pairs `(i, j)` with `i < a.length`, `j < b.length`, in
lexicographic order — the scan order of `find_longest_match`. -/
def candidatesIdx (a b : List Char) : List (Nat × Nat) :=
  (List.range a.length).flatMap (fun i => (List.range b.length).map (fun j => (i, j)))

/-- One step of the longest-block scan: replace the current best `(i, j, k)`
only by a strictly longer block, so the earliest maximal block wins. -/
def pick (a b : List Char) (best : Nat × Nat × Nat) (ij : Nat × Nat) : Nat × Nat × Nat :=
  if best.2.2 < prefLen (a.drop ij.1) (b.drop ij.2) then
    (ij.1, ij.2, prefLen (a.drop ij.1) (b.drop ij.2))
  else best

/-- `find_longest_match` over the whole of both strings: the longest common
contiguous block as `(start in a, start in b, size)`, `(0, 0, 0)` if none. -/
def bestOf (a b : List Char) : Nat × Nat × Nat :=
  (candidatesIdx a b).foldl (pick a b) (0, 0, 0)

/-- Total number of matched characters: match the longest common block, then
recurse on the left and right remainders (`get_matching_blocks`).  `fuel`
bounds the recursion depth. -/
def matchTotalGo : Nat → List Char → List Char → Nat
  | 0, _, _ => 0
  | fuel + 1, a, b =>
    let best := bestOf a b
    if best.2.2 = 0 then 0
    else
      best.2.2 + matchTotalGo fuel (a.take best.1) (b.take best.2.1)
        + matchTotalGo fuel (a.drop (best.1 + best.2.2)) (b.drop (best.2.1 + best.2.2))

/-- Matched-character count of `difflib.SequenceMatcher`; the fuel exceeds the
maximal recursion depth. -/
def matchTotal (a b : List Char) : Nat :=
  matchTotalGo (a.length + b.length + 1) a b

/-- `str.lower()` on the character list of a string (ASCII case folding). -/
def lowerChars (s : String) : List Char :=
  s.data.map Char.toLower

/-- `SmartMatcher.calculate_similarity`:
`difflib.SequenceMatcher(None, str1.lower(), str2.lower()).ratio()`, that is
`2 * matched / (len1 + len2)`, and `1.0` when both strings are empty. -/
def calculate_similarity (str1 str2 : String) : ℚ :=
  if (lowerChars str1).length + (lowerChars str2).length = 0 then 1
  else 2 * (matchTotal (lowerChars str1) (lowerChars str2) : ℚ)
    / (((lowerChars str1).length + (lowerChars str2).length : Nat) : ℚ)

/-! ### Basic facts about the block matcher -/

lemma prefLen_le_left : ∀ xs ys : List Char, prefLen xs ys ≤ xs.length := by
  intro xs
  induction xs with
  | nil => intro ys; cases ys <;> simp [prefLen]
  | cons x xs ih =>
    intro ys
    cases ys with
    | nil => simp [prefLen]
    | cons y ys =>
      simp only [prefLen, List.length_cons]
      split
      · exact Nat.succ_le_succ (ih ys)
      · exact Nat.zero_le _

lemma prefLen_le_right : ∀ xs ys : List Char, prefLen xs ys ≤ ys.length := by
  intro xs
  induction xs with
  | nil => intro ys; cases ys <;> simp [prefLen]
  | cons x xs ih =>
    intro ys
    cases ys with
    | nil => simp [prefLen]
    | cons y ys =>
      simp only [prefLen, List.length_cons]
      split
      · exact Nat.succ_le_succ (ih ys)
      · exact Nat.zero_le _

lemma prefLen_self : ∀ xs : List Char, prefLen xs xs = xs.length := by
  intro xs
  induction xs with
  | nil => simp [prefLen]
  | cons x xs ih => simp [prefLen, ih]

lemma foldl_fixed {α β : Type} (f : β → α → β) (b : β) :
    ∀ l : List α, (∀ x, f b x = b) → l.foldl f b = b := by
  intro l h
  induction l with
  | nil => rfl
  | cons x xs ih => simp only [List.foldl_cons, h x]; exact ih

lemma foldl_preserve {α β : Type} (P : β → Prop) (f : β → α → β) :
    ∀ (l : List α) (b : β), P b → (∀ b' x, x ∈ l → P b' → P (f b' x)) →
      P (l.foldl f b) := by
  intro l
  induction l with
  | nil => intro b hb _; exact hb
  | cons x xs ih =>
    intro b hb hstep
    simp only [List.foldl_cons]
    exact ih (f b x) (hstep b x (List.mem_cons_self x xs) hb)
      (fun b' y hy => hstep b' y (List.mem_cons_of_mem x hy))

lemma mem_candidatesIdx {a b : List Char} {i j : Nat} :
    (i, j) ∈ candidatesIdx a b → i < a.length ∧ j < b.length := by
  intro h
  unfold candidatesIdx at h
  rcases List.mem_flatMap.mp h with ⟨i', hi', hmem⟩
  rcases List.mem_map.mp hmem with ⟨j', hj', hpair⟩
  cases hpair
  exact ⟨List.mem_range.mp hi', List.mem_range.mp hj'⟩

/-- The reported block fits inside both strings. -/
lemma bestOf_inv (a b : List Char) :
    (bestOf a b).1 + (bestOf a b).2.2 ≤ a.length ∧
      (bestOf a b).2.1 + (bestOf a b).2.2 ≤ b.length := by
  unfold bestOf
  apply foldl_preserve
    (fun best : Nat × Nat × Nat =>
      best.1 + best.2.2 ≤ a.length ∧ best.2.1 + best.2.2 ≤ b.length)
  · exact ⟨Nat.zero_le _, Nat.zero_le _⟩
  · rintro ⟨bi, bj, bk⟩ ⟨i, j⟩ hmem hP
    obtain ⟨hi, hj⟩ := mem_candidatesIdx hmem
    unfold pick
    split
    · constructor
      · have h1 := prefLen_le_left (a.drop i) (b.drop j)
        rw [List.length_drop] at h1
        simp only
        omega
      · have h2 := prefLen_le_right (a.drop i) (b.drop j)
        rw [List.length_drop] at h2
        simp only
        omega
    · exact hP

lemma pick_fixed_self (a : List Char) (ij : Nat × Nat) :
    pick a a (0, 0, a.length) ij = (0, 0, a.length) := by
  unfold pick
  rw [if_neg]
  simp only [not_lt]
  calc prefLen (a.drop ij.1) (a.drop ij.2) ≤ (a.drop ij.1).length := prefLen_le_left _ _
    _ ≤ a.length := by rw [List.length_drop]; omega

lemma bestOf_self (a : List Char) (h : a ≠ []) :
    bestOf a a = (0, 0, a.length) := by
  cases a with
  | nil => exact absurd rfl h
  | cons x xs =>
    obtain ⟨rest, hrest⟩ : ∃ rest,
        candidatesIdx (x :: xs) (x :: xs) = (0, 0) :: rest := by
      unfold candidatesIdx
      rw [List.length_cons, List.range_succ_eq_map, List.flatMap_cons,
        List.map_cons, List.cons_append]
      exact ⟨_, rfl⟩
    have hpick0 : pick (x :: xs) (x :: xs) (0, 0, 0) (0, 0) = (0, 0, (x :: xs).length) := by
      unfold pick
      simp only [List.drop_zero, prefLen_self]
      rw [if_pos]
      simp
    rw [bestOf, hrest, List.foldl_cons, hpick0]
    exact foldl_fixed _ _ rest (pick_fixed_self (x :: xs))

lemma candidatesIdx_nil_left (b : List Char) : candidatesIdx [] b = [] := by
  simp [candidatesIdx]

lemma candidatesIdx_nil_right (a : List Char) : candidatesIdx a [] = [] := by
  unfold candidatesIdx
  induction (List.range a.length) with
  | nil => rfl
  | cons x xs ih => simp_all

lemma bestOf_nil_left (b : List Char) : bestOf [] b = (0, 0, 0) := by
  rw [bestOf, candidatesIdx_nil_left]; rfl

lemma bestOf_nil_right (a : List Char) : bestOf a [] = (0, 0, 0) := by
  rw [bestOf, candidatesIdx_nil_right]; rfl

lemma matchTotalGo_succ (fuel : Nat) (a b : List Char) :
    matchTotalGo (fuel + 1) a b =
      if (bestOf a b).2.2 = 0 then 0
      else
        (bestOf a b).2.2 + matchTotalGo fuel (a.take (bestOf a b).1) (b.take (bestOf a b).2.1)
          + matchTotalGo fuel (a.drop ((bestOf a b).1 + (bestOf a b).2.2))
              (b.drop ((bestOf a b).2.1 + (bestOf a b).2.2)) := rfl

lemma matchTotalGo_nil_left (fuel : Nat) (b : List Char) :
    matchTotalGo fuel [] b = 0 := by
  cases fuel with
  | zero => rfl
  | succ m => rw [matchTotalGo_succ, bestOf_nil_left]; rfl

lemma matchTotalGo_nil_right (fuel : Nat) (a : List Char) :
    matchTotalGo fuel a [] = 0 := by
  cases fuel with
  | zero => rfl
  | succ m => rw [matchTotalGo_succ, bestOf_nil_right]; rfl

/-- The matched-character count never exceeds either string's length. -/
lemma matchTotalGo_le :
    ∀ (fuel : Nat) (a b : List Char),
      matchTotalGo fuel a b ≤ a.length ∧ matchTotalGo fuel a b ≤ b.length := by
  intro fuel
  induction fuel with
  | zero => intro a b; exact ⟨Nat.zero_le _, Nat.zero_le _⟩
  | succ m ih =>
    intro a b
    rw [matchTotalGo_succ]
    split
    · exact ⟨Nat.zero_le _, Nat.zero_le _⟩
    · obtain ⟨h1, h2⟩ := bestOf_inv a b
      obtain ⟨l1, l2⟩ := ih (a.take (bestOf a b).1) (b.take (bestOf a b).2.1)
      obtain ⟨r1, r2⟩ := ih (a.drop ((bestOf a b).1 + (bestOf a b).2.2))
        (b.drop ((bestOf a b).2.1 + (bestOf a b).2.2))
      rw [List.length_take] at l1 l2
      rw [List.length_drop] at r1 r2
      omega

lemma matchTotal_le_left (a b : List Char) : matchTotal a b ≤ a.length :=
  (matchTotalGo_le _ a b).1

lemma matchTotal_le_right (a b : List Char) : matchTotal a b ≤ b.length :=
  (matchTotalGo_le _ a b).2

lemma matchTotal_nil_left (b : List Char) : matchTotal [] b = 0 :=
  matchTotalGo_nil_left _ b

lemma matchTotal_nil_right (a : List Char) : matchTotal a [] = 0 :=
  matchTotalGo_nil_right _ a

lemma matchTotal_self (a : List Char) : matchTotal a a = a.length := by
  by_cases h : a = []
  · subst h; rfl
  · rw [matchTotal, matchTotalGo_succ, bestOf_self a h]
    have hlen : a.length ≠ 0 := by
      cases a with
      | nil => exact absurd rfl h
      | cons x xs => simp
    rw [if_neg hlen]
    simp only [List.take_zero, List.drop_zero, Nat.zero_add, List.drop_length,
      matchTotalGo_nil_left, Nat.add_zero]

/-! ### Similarity contract facts -/

lemma similarity_le_one (s t : String) : calculate_similarity s t ≤ 1 := by
  unfold calculate_similarity
  split
  · exact le_refl 1
  · rename_i htot
    have hpos : (0 : ℚ) < (((lowerChars s).length + (lowerChars t).length : Nat) : ℚ) := by
      have : 0 < (lowerChars s).length + (lowerChars t).length := Nat.pos_of_ne_zero htot
      exact_mod_cast this
    rw [div_le_one hpos]
    have h1 := matchTotal_le_left (lowerChars s) (lowerChars t)
    have h2 := matchTotal_le_right (lowerChars s) (lowerChars t)
    have : 2 * matchTotal (lowerChars s) (lowerChars t)
        ≤ (lowerChars s).length + (lowerChars t).length := by omega
    exact_mod_cast this

lemma similarity_nonneg (s t : String) : 0 ≤ calculate_similarity s t := by
  unfold calculate_similarity
  split
  · norm_num
  · apply div_nonneg
    · positivity
    · positivity

lemma similarity_self (s : String) : calculate_similarity s s = 1 := by
  unfold calculate_similarity
  split
  · rfl
  · rename_i htot
    rw [matchTotal_self]
    have hlen : (lowerChars s).length ≠ 0 := by omega
    have hq : ((lowerChars s).length : ℚ) ≠ 0 := by exact_mod_cast hlen
    push_cast
    field_simp
    ring

lemma lowerChars_ne_nil {t : String} (h : t ≠ "") : (lowerChars t).length ≠ 0 := by
  have hdata : t.data ≠ [] := by
    intro hd
    exact h (by cases t; simp_all)
  simp only [lowerChars, List.length_map]
  intro hz
  exact hdata (List.length_eq_zero.mp hz)

lemma similarity_empty_left (t : String) (h : t ≠ "") :
    calculate_similarity "" t = 0 := by
  unfold calculate_similarity
  rw [show lowerChars "" = [] from rfl]
  rw [if_neg (by simpa using lowerChars_ne_nil h)]
  rw [matchTotal_nil_left]
  simp

lemma similarity_empty_right (t : String) (h : t ≠ "") :
    calculate_similarity t "" = 0 := by
  unfold calculate_similarity
  rw [show lowerChars "" = [] from rfl]
  rw [if_neg (by simpa using lowerChars_ne_nil h)]
  rw [matchTotal_nil_right]
  simp

/-! ### Keyword extraction

`SmartMatcher.extract_keywords` tokenizes with `re.findall(r'\b\w+\b', text.lower())`.
Python's `\w` matches letters, digits and the underscore, so the tokens are the
maximal runs of such word characters (the model is scoped to ASCII text;
Python's `\w` and `str.lower` are additionally Unicode-aware).  The scan is
embedded twice: `scanRuns` is a left-to-right scanner with an accumulator, as
the regex engine scans, and `wordRuns` is the declarative
"maximal runs of characters satisfying `p`" reading used by the specification;
`scanRuns_eq` proves them equal. -/

/-- A character matched by Python's `\w` (ASCII): alphanumeric or underscore. -/
def isWordChar (c : Char) : Bool := c.isAlphanum || c == '_'

/-- Left-to-right scan collecting maximal runs of characters satisfying `p`;
`cur` is the current run, reversed. -/
def scanRuns (p : Char → Bool) : List Char → List Char → List (List Char)
  | cur, [] => if cur.isEmpty then [] else [cur.reverse]
  | cur, c :: rest =>
    if p c then scanRuns p (c :: cur) rest
    else if cur.isEmpty then scanRuns p [] rest
    else cur.reverse :: scanRuns p [] rest

/-- Declarative form: the maximal runs of characters satisfying `p`. -/
def wordRuns (p : Char → Bool) : List Char → List (List Char)
  | [] => []
  | c :: rest =>
    if p c then (c :: rest.takeWhile p) :: wordRuns p (rest.dropWhile p)
    else wordRuns p rest
termination_by cs => cs.length
decreasing_by
  · simp only [List.length_cons]
    exact Nat.lt_succ_of_le (List.dropWhile_sublist p).length_le
  · simp

lemma scanRuns_eq (p : Char → Bool) :
    ∀ (cs : List Char) (cur : List Char),
      scanRuns p cur cs =
        if cur.isEmpty then wordRuns p cs
        else (cur.reverse ++ cs.takeWhile p) :: wordRuns p (cs.dropWhile p) := by
  intro cs
  induction cs with
  | nil =>
    intro cur
    cases cur with
    | nil => simp [scanRuns, wordRuns]
    | cons x xs => simp [scanRuns, wordRuns]
  | cons c rest ih =>
    intro cur
    by_cases hp : p c
    · rw [show scanRuns p cur (c :: rest) = scanRuns p (c :: cur) rest by
        simp [scanRuns, hp]]
      rw [ih (c :: cur)]
      simp only [List.isEmpty_cons, List.reverse_cons]
      cases cur with
      | nil =>
        simp [wordRuns, hp, List.takeWhile_cons_of_pos, List.dropWhile_cons_of_pos]
      | cons x xs =>
        simp [hp, List.takeWhile_cons_of_pos, List.dropWhile_cons_of_pos,
          List.append_assoc]
    · cases cur with
      | nil =>
        rw [show scanRuns p [] (c :: rest) = scanRuns p [] rest by
          simp [scanRuns, hp]]
        rw [ih []]
        simp [wordRuns, hp]
      | cons x xs =>
        rw [show scanRuns p (x :: xs) (c :: rest) = (x :: xs).reverse :: scanRuns p [] rest by
          simp [scanRuns, hp]]
        rw [ih []]
        simp [wordRuns, hp, List.takeWhile_cons_of_neg, List.dropWhile_cons_of_neg]

lemma wordRuns_eq_scan (p : Char → Bool) (cs : List Char) :
    wordRuns p cs = scanRuns p [] cs := by
  rw [scanRuns_eq]
  simp

/-- The stopword set of `SmartMatcher.extract_keywords`. -/
def common_words : List String :=
  ["the", "a", "an", "and", "or", "but", "in", "on", "at", "to", "for", "of",
    "with", "by", "is", "was", "are", "were"]

/-- The filter of the list comprehension:
`word not in common_words and len(word) > 2`. -/
def keepWord (w : String) : Bool :=
  !(common_words.contains w) && decide (2 < w.length)

/-- `SmartMatcher.extract_keywords`: lowercase, take the maximal `\w` runs,
drop stopwords and tokens of length at most 2, preserving order and
duplicates. -/
def extract_keywords (text : String) : List String :=
  ((scanRuns isWordChar [] (lowerChars text)).map (fun r => String.mk r)).filter keepWord

/-- The tokenization claimed by the specification sentence, word for word:
runs of *alphanumeric* characters (no underscore). -/
def keywords_alnum_spec (text : String) : List String :=
  ((wordRuns (fun c => c.isAlphanum) (lowerChars text)).map (fun r => String.mk r)).filter
    keepWord

/-- The amended tokenization: runs of word characters (alphanumeric or
underscore), matching Python's `\w`. -/
def keywords_runs_amended (text : String) : List String :=
  ((wordRuns isWordChar (lowerChars text)).map (fun r => String.mk r)).filter keepWord

/-! ### Report data model

The reports are MongoDB documents.  In the matcher a field test
`d.get(k) and ...` treats a missing key, a `None` value and the empty string
identically (all falsy), so every optional attribute is modelled as a plain
string with `""` standing for "absent"; `report_type` is accessed with
`d['report_type']` and is therefore a required field. -/

structure PersonReport where
  report_type : String
  name : String
  age : String
  gender : String
  description : String
  location : String
  contact : String
deriving DecidableEq, Repr

structure ItemReport where
  report_type : String
  category : String
  color : String
  brand : String
  description : String
  location : String
  contact : String
deriving DecidableEq, Repr

/-- Value of the digit string (most significant first). -/
def digitsToNat (cs : List Char) : Nat :=
  cs.foldl (fun acc c => 10 * acc + (c.toNat - 48)) 0

/-- Python's `int(s)` on a string, with `none` for the `ValueError` path:
strip surrounding whitespace, allow one optional sign, then require a
non-empty run of decimal digits.  (Python additionally accepts underscore
digit separators and non-ASCII decimal digits, which are outside this
ASCII-scoped model.) -/
def pyInt (s : String) : Option Int :=
  match ((s.data.dropWhile Char.isWhitespace).reverse.dropWhile Char.isWhitespace).reverse with
  | [] => none
  | c :: cs =>
    if c = '-' then
      if cs ≠ [] ∧ cs.all Char.isDigit then some (-(digitsToNat cs : Int)) else none
    else if c = '+' then
      if cs ≠ [] ∧ cs.all Char.isDigit then some ((digitsToNat cs : Int)) else none
    else
      if (c :: cs).all Char.isDigit then some ((digitsToNat (c :: cs) : Int)) else none

/-! ### Match engine

Each factor of `SmartMatcher.match_persons` / `match_items` either contributes
`weight * value` to the running `score` and increments the `factors` counter,
or leaves both unchanged; `factorStep` applies one factor's outcome and each
`...Contrib` function is the corresponding guarded block of the source. -/

/-- Apply one factor: `some v` adds `v` to the score and bumps the counter. -/
def factorStep (c : Option ℚ) (sf : ℚ × Nat) : ℚ × Nat :=
  match c with
  | some v => (sf.1 + v, sf.2 + 1)
  | none => sf

/-- Name factor: active when both names are non-empty and
`calculate_similarity > 0.6`; contributes `name_sim * 0.4`. -/
def nameContrib (n e : PersonReport) : Option ℚ :=
  if n.name ≠ "" ∧ e.name ≠ "" then
    if 0.6 < calculate_similarity n.name e.name then
      some (calculate_similarity n.name e.name * 0.4)
    else none
  else none

/-- Age factor: active when both ages are non-empty, both parse as integers
and the difference is at most 5; contributes `(1.0 - diff * 0.1) * 0.2`.
A parse failure (`int(...)` raising) skips the factor. -/
def ageContrib (n e : PersonReport) : Option ℚ :=
  if n.age ≠ "" ∧ e.age ≠ "" then
    match pyInt n.age, pyInt e.age with
    | some x, some y =>
      if (x - y).natAbs ≤ 5 then
        some ((1 - ((x - y).natAbs : ℚ) * 0.1) * 0.2)
      else none
    | _, _ => none
  else none

/-- Gender factor: active when both genders are non-empty and equal after
lowercasing; contributes a flat `0.2`. -/
def genderContrib (n e : PersonReport) : Option ℚ :=
  if n.gender ≠ "" ∧ e.gender ≠ "" then
    if lowerChars n.gender = lowerChars e.gender then some 0.2 else none
  else none

/-- Number of keywords of the new report having some keyword of the existing
report with `calculate_similarity > 0.7` (the inner loop `break`s after the
first hit, so each new keyword counts at most once). -/
def keywordMatches (kn ke : List String) : Nat :=
  kn.countP (fun nk => ke.any (fun ek => decide (0.7 < calculate_similarity nk ek)))

/-- Keyword-overlap ratio `keyword_matches / len(new_keywords)`. -/
def keywordOverlap (kn ke : List String) : ℚ :=
  (keywordMatches kn ke : ℚ) / (kn.length : ℚ)

/-- Description factor (persons): both descriptions non-empty and both keyword
lists non-empty; contributes `overlap * 0.2`. -/
def descContribPerson (n e : PersonReport) : Option ℚ :=
  if n.description ≠ "" ∧ e.description ≠ "" then
    if extract_keywords n.description ≠ [] ∧ extract_keywords e.description ≠ [] then
      some (keywordOverlap (extract_keywords n.description)
        (extract_keywords e.description) * 0.2)
    else none
  else none

/-- Location factor (persons): active when `calculate_similarity > 0.4`;
contributes `location_sim * 0.2`. -/
def locContribPerson (n e : PersonReport) : Option ℚ :=
  if n.location ≠ "" ∧ e.location ≠ "" then
    if 0.4 < calculate_similarity n.location e.location then
      some (calculate_similarity n.location e.location * 0.2)
    else none
  else none

/-- The `(score, factors)` pair accumulated over the five person factors, in
source order: name, age, gender, description, location. -/
def scorePerson (n e : PersonReport) : ℚ × Nat :=
  factorStep (locContribPerson n e)
    (factorStep (descContribPerson n e)
      (factorStep (genderContrib n e)
        (factorStep (ageContrib n e)
          (factorStep (nameContrib n e) (0, 0)))))

/-- Category factor (items): `similarity > 0.6`, weight `0.25`. -/
def categoryContrib (n e : ItemReport) : Option ℚ :=
  if n.category ≠ "" ∧ e.category ≠ "" then
    if 0.6 < calculate_similarity n.category e.category then
      some (calculate_similarity n.category e.category * 0.25)
    else none
  else none

/-- Color factor (items): `similarity > 0.6`, weight `0.25`. -/
def colorContrib (n e : ItemReport) : Option ℚ :=
  if n.color ≠ "" ∧ e.color ≠ "" then
    if 0.6 < calculate_similarity n.color e.color then
      some (calculate_similarity n.color e.color * 0.25)
    else none
  else none

/-- Brand factor (items): `similarity > 0.6`, weight `0.2`. -/
def brandContrib (n e : ItemReport) : Option ℚ :=
  if n.brand ≠ "" ∧ e.brand ≠ "" then
    if 0.6 < calculate_similarity n.brand e.brand then
      some (calculate_similarity n.brand e.brand * 0.2)
    else none
  else none

/-- Description factor (items): keyword overlap, weight `0.15`. -/
def descContribItem (n e : ItemReport) : Option ℚ :=
  if n.description ≠ "" ∧ e.description ≠ "" then
    if extract_keywords n.description ≠ [] ∧ extract_keywords e.description ≠ [] then
      some (keywordOverlap (extract_keywords n.description)
        (extract_keywords e.description) * 0.15)
    else none
  else none

/-- Location factor (items): `similarity > 0.4`, weight `0.1`. -/
def locContribItem (n e : ItemReport) : Option ℚ :=
  if n.location ≠ "" ∧ e.location ≠ "" then
    if 0.4 < calculate_similarity n.location e.location then
      some (calculate_similarity n.location e.location * 0.1)
    else none
  else none

/-- The `(score, factors)` pair over the five item factors, in source order:
category, color, brand, description, location. -/
def scoreItem (n e : ItemReport) : ℚ × Nat :=
  factorStep (locContribItem n e)
    (factorStep (descContribItem n e)
      (factorStep (brandContrib n e)
        (factorStep (colorContrib n e)
          (factorStep (categoryContrib n e) (0, 0)))))

/-- Per-candidate outcome of the loop body of `match_persons`: `none` when the
pair is skipped (same `report_type`, zero activated factors, or
`final_score ≤ 0.55`), otherwise the appended `(existing, final_score)`. -/
def candidatePerson (n e : PersonReport) : Option (PersonReport × ℚ) :=
  if n.report_type = e.report_type then none
  else
    if 0 < (scorePerson n e).2 then
      if 0.55 < (scorePerson n e).1 / ((scorePerson n e).2 : ℚ) then
        some (e, (scorePerson n e).1 / ((scorePerson n e).2 : ℚ))
      else none
    else none

/-- Per-candidate outcome of the loop body of `match_items`. -/
def candidateItem (n e : ItemReport) : Option (ItemReport × ℚ) :=
  if n.report_type = e.report_type then none
  else
    if 0 < (scoreItem n e).2 then
      if 0.55 < (scoreItem n e).1 / ((scoreItem n e).2 : ℚ) then
        some (e, (scoreItem n e).1 / ((scoreItem n e).2 : ℚ))
      else none
    else none

/-- Stable insertion into a descending-by-score list: a new element goes
before the first strictly smaller score, after any equal ones — the order
produced by Python's stable `sort(key=..., reverse=True)`. -/
def insertDesc {α : Type} (p : α × ℚ) : List (α × ℚ) → List (α × ℚ)
  | [] => [p]
  | q :: qs => if q.2 < p.2 then p :: q :: qs else q :: insertDesc p qs

/-- Stable descending sort by score (`matches.sort(key=lambda x: x[1],
reverse=True)`). -/
def sortDesc {α : Type} (l : List (α × ℚ)) : List (α × ℚ) :=
  l.foldl (fun acc p => insertDesc p acc) []

/-- `SmartMatcher.match_persons`: score every existing report, keep the pairs
passing the threshold, sort descending by score, return the first 5. -/
def match_persons (n : PersonReport) (existing : List PersonReport) :
    List (PersonReport × ℚ) :=
  (sortDesc (existing.filterMap (candidatePerson n))).take 5

/-- `SmartMatcher.match_items`. -/
def match_items (n : ItemReport) (existing : List ItemReport) :
    List (ItemReport × ℚ) :=
  (sortDesc (existing.filterMap (candidateItem n))).take 5

/-! ### Every activated factor contributes at most its weight -/

lemma keywordOverlap_le_one (kn ke : List String) (h : kn ≠ []) :
    keywordOverlap kn ke ≤ 1 := by
  unfold keywordOverlap
  have hlen : 0 < kn.length := List.length_pos.mpr h
  have hq : (0 : ℚ) < (kn.length : ℚ) := by exact_mod_cast hlen
  rw [div_le_one hq]
  have := List.countP_le_length
    (fun nk => ke.any (fun ek => decide (0.7 < calculate_similarity nk ek))) (l := kn)
  exact_mod_cast this

lemma nameContrib_le {n e : PersonReport} {c : ℚ} (h : nameContrib n e = some c) :
    c ≤ 0.4 := by
  unfold nameContrib at h
  split at h
  · split at h
    · cases h
      exact mul_le_of_le_one_left (by norm_num) (similarity_le_one _ _)
    · cases h
  · cases h

lemma ageContrib_le {n e : PersonReport} {c : ℚ} (h : ageContrib n e = some c) :
    c ≤ 0.4 := by
  unfold ageContrib at h
  split at h
  · split at h
    · rename_i x y hx hy
      split at h
      · cases h
        have h1 : (1 - ((x - y).natAbs : ℚ) * 0.1) ≤ 1 := by
          have : (0 : ℚ) ≤ ((x - y).natAbs : ℚ) := by positivity
          nlinarith
        calc (1 - ((x - y).natAbs : ℚ) * 0.1) * 0.2
            ≤ 0.2 := mul_le_of_le_one_left (by norm_num) h1
          _ ≤ 0.4 := by norm_num
      · cases h
    · cases h
  · cases h

lemma genderContrib_le {n e : PersonReport} {c : ℚ} (h : genderContrib n e = some c) :
    c ≤ 0.4 := by
  unfold genderContrib at h
  split at h
  · split at h
    · cases h; norm_num
    · cases h
  · cases h

lemma descContribPerson_le {n e : PersonReport} {c : ℚ}
    (h : descContribPerson n e = some c) : c ≤ 0.4 := by
  unfold descContribPerson at h
  split at h
  · split at h
    · rename_i hkw
      cases h
      calc keywordOverlap (extract_keywords n.description)
            (extract_keywords e.description) * 0.2
          ≤ 0.2 := mul_le_of_le_one_left (by norm_num)
            (keywordOverlap_le_one _ _ hkw.1)
        _ ≤ 0.4 := by norm_num
    · cases h
  · cases h

lemma locContribPerson_le {n e : PersonReport} {c : ℚ}
    (h : locContribPerson n e = some c) : c ≤ 0.4 := by
  unfold locContribPerson at h
  split at h
  · split at h
    · cases h
      calc calculate_similarity n.location e.location * 0.2
          ≤ 0.2 := mul_le_of_le_one_left (by norm_num) (similarity_le_one _ _)
        _ ≤ 0.4 := by norm_num
    · cases h
  · cases h

lemma factorStep_le (w : ℚ) (o : Option ℚ) (sf : ℚ × Nat)
    (hsf : sf.1 ≤ w * sf.2) (ho : ∀ c, o = some c → c ≤ w) :
    (factorStep o sf).1 ≤ w * (factorStep o sf).2 := by
  cases o with
  | none => exact hsf
  | some c =>
    have hc := ho c rfl
    simp only [factorStep]
    push_cast
    nlinarith

/-- The person score is at most `0.4` per activated factor. -/
lemma scorePerson_le (n e : PersonReport) :
    (scorePerson n e).1 ≤ 0.4 * ((scorePerson n e).2 : ℚ) := by
  unfold scorePerson
  apply factorStep_le
  · apply factorStep_le
    · apply factorStep_le
      · apply factorStep_le
        · apply factorStep_le
          · norm_num
          · exact fun c h => nameContrib_le h
        · exact fun c h => ageContrib_le h
      · exact fun c h => genderContrib_le h
    · exact fun c h => descContribPerson_le h
  · exact fun c h => locContribPerson_le h

lemma categoryContrib_le {n e : ItemReport} {c : ℚ} (h : categoryContrib n e = some c) :
    c ≤ 0.25 := by
  unfold categoryContrib at h
  split at h
  · split at h
    · cases h
      exact mul_le_of_le_one_left (by norm_num) (similarity_le_one _ _)
    · cases h
  · cases h

lemma colorContrib_le {n e : ItemReport} {c : ℚ} (h : colorContrib n e = some c) :
    c ≤ 0.25 := by
  unfold colorContrib at h
  split at h
  · split at h
    · cases h
      exact mul_le_of_le_one_left (by norm_num) (similarity_le_one _ _)
    · cases h
  · cases h

lemma brandContrib_le {n e : ItemReport} {c : ℚ} (h : brandContrib n e = some c) :
    c ≤ 0.25 := by
  unfold brandContrib at h
  split at h
  · split at h
    · cases h
      calc calculate_similarity n.brand e.brand * 0.2
          ≤ 0.2 := mul_le_of_le_one_left (by norm_num) (similarity_le_one _ _)
        _ ≤ 0.25 := by norm_num
    · cases h
  · cases h

lemma descContribItem_le {n e : ItemReport} {c : ℚ}
    (h : descContribItem n e = some c) : c ≤ 0.25 := by
  unfold descContribItem at h
  split at h
  · split at h
    · rename_i hkw
      cases h
      calc keywordOverlap (extract_keywords n.description)
            (extract_keywords e.description) * 0.15
          ≤ 0.15 := mul_le_of_le_one_left (by norm_num)
            (keywordOverlap_le_one _ _ hkw.1)
        _ ≤ 0.25 := by norm_num
    · cases h
  · cases h

lemma locContribItem_le {n e : ItemReport} {c : ℚ}
    (h : locContribItem n e = some c) : c ≤ 0.25 := by
  unfold locContribItem at h
  split at h
  · split at h
    · cases h
      calc calculate_similarity n.location e.location * 0.1
          ≤ 0.1 := mul_le_of_le_one_left (by norm_num) (similarity_le_one _ _)
        _ ≤ 0.25 := by norm_num
    · cases h
  · cases h

/-- The item score is at most `0.25` per activated factor. -/
lemma scoreItem_le (n e : ItemReport) :
    (scoreItem n e).1 ≤ 0.25 * ((scoreItem n e).2 : ℚ) := by
  unfold scoreItem
  apply factorStep_le
  · apply factorStep_le
    · apply factorStep_le
      · apply factorStep_le
        · apply factorStep_le
          · norm_num
          · exact fun c h => categoryContrib_le h
        · exact fun c h => colorContrib_le h
      · exact fun c h => brandContrib_le h
    · exact fun c h => descContribItem_le h
  · exact fun c h => locContribItem_le h

lemma finalScorePerson_le (n e : PersonReport) (h : 0 < (scorePerson n e).2) :
    (scorePerson n e).1 / ((scorePerson n e).2 : ℚ) ≤ 0.4 := by
  have hq : (0 : ℚ) < ((scorePerson n e).2 : ℚ) := by exact_mod_cast h
  rw [div_le_iff₀ hq]
  calc (scorePerson n e).1 ≤ 0.4 * ((scorePerson n e).2 : ℚ) := scorePerson_le n e
    _ = 0.4 * ((scorePerson n e).2 : ℚ) := rfl

lemma finalScoreItem_le (n e : ItemReport) (h : 0 < (scoreItem n e).2) :
    (scoreItem n e).1 / ((scoreItem n e).2 : ℚ) ≤ 0.25 := by
  have hq : (0 : ℚ) < ((scoreItem n e).2 : ℚ) := by exact_mod_cast h
  rw [div_le_iff₀ hq]
  calc (scoreItem n e).1 ≤ 0.25 * ((scoreItem n e).2 : ℚ) := scoreItem_le n e
    _ = 0.25 * ((scoreItem n e).2 : ℚ) := rfl

/-- No pair ever passes the `final_score > 0.55` filter. -/
lemma candidatePerson_eq_none (n e : PersonReport) : candidatePerson n e = none := by
  unfold candidatePerson
  split_ifs with h1 h2 h3
  · rfl
  · exfalso
    have := finalScorePerson_le n e h2
    norm_num at this h3
    linarith
  · rfl
  · rfl

lemma candidateItem_eq_none (n e : ItemReport) : candidateItem n e = none := by
  unfold candidateItem
  split_ifs with h1 h2 h3
  · rfl
  · exfalso
    have := finalScoreItem_le n e h2
    norm_num at this h3
    linarith
  · rfl
  · rfl

lemma filterMap_candidatePerson_nil (n : PersonReport) (ex : List PersonReport) :
    ex.filterMap (candidatePerson n) = [] := by
  induction ex with
  | nil => rfl
  | cons e es ih => simp [List.filterMap_cons, candidatePerson_eq_none, ih]

lemma filterMap_candidateItem_nil (n : ItemReport) (ex : List ItemReport) :
    ex.filterMap (candidateItem n) = [] := by
  induction ex with
  | nil => rfl
  | cons e es ih => simp [List.filterMap_cons, candidateItem_eq_none, ih]

lemma match_persons_nil (n : PersonReport) (ex : List PersonReport) :
    match_persons n ex = [] := by
  unfold match_persons
  rw [filterMap_candidatePerson_nil]
  rfl

lemma match_items_nil (n : ItemReport) (ex : List ItemReport) :
    match_items n ex = [] := by
  unfold match_items
  rw [filterMap_candidateItem_nil]
  rfl

/-- Characterization of the candidate list: a pair is kept iff it comes from
an opposite-type existing report with at least one activated factor and
`final_score > 0.55` (in fact both sides are always false by the lemmas
above, but the equivalence is the loop's filter condition verbatim). -/
lemma mem_candidates_person_iff (n : PersonReport) (ex : List PersonReport)
    (p : PersonReport × ℚ) :
    p ∈ ex.filterMap (candidatePerson n) ↔
      ∃ e, e ∈ ex ∧ n.report_type ≠ e.report_type ∧ 0 < (scorePerson n e).2 ∧
        0.55 < (scorePerson n e).1 / ((scorePerson n e).2 : ℚ) ∧
        p = (e, (scorePerson n e).1 / ((scorePerson n e).2 : ℚ)) := by
  constructor
  · intro h
    rw [List.mem_filterMap] at h
    obtain ⟨e, _, hc⟩ := h
    rw [candidatePerson_eq_none] at hc
    cases hc
  · rintro ⟨e, _, _, h2, h3, rfl⟩
    exfalso
    have := finalScorePerson_le n e h2
    norm_num at this h3
    linarith

lemma mem_candidates_item_iff (n : ItemReport) (ex : List ItemReport)
    (p : ItemReport × ℚ) :
    p ∈ ex.filterMap (candidateItem n) ↔
      ∃ e, e ∈ ex ∧ n.report_type ≠ e.report_type ∧ 0 < (scoreItem n e).2 ∧
        0.55 < (scoreItem n e).1 / ((scoreItem n e).2 : ℚ) ∧
        p = (e, (scoreItem n e).1 / ((scoreItem n e).2 : ℚ)) := by
  constructor
  · intro h
    rw [List.mem_filterMap] at h
    obtain ⟨e, _, hc⟩ := h
    rw [candidateItem_eq_none] at hc
    cases hc
  · rintro ⟨e, _, _, h2, h3, rfl⟩
    exfalso
    have := finalScoreItem_le n e h2
    norm_num at this h3
    linarith

lemma candidatePerson_same_type (n e : PersonReport)
    (h : n.report_type = e.report_type) : candidatePerson n e = none := by
  unfold candidatePerson
  rw [if_pos h]

lemma candidateItem_same_type (n e : ItemReport)
    (h : n.report_type = e.report_type) : candidateItem n e = none := by
  unfold candidateItem
  rw [if_pos h]

/-! ### Notification dispatcher

`WhatsAppNotifier.send_match_notification` builds the alert message, inserts a
notification record with status `pending` into the `notifications` collection,
invokes `WhatsAppHandler.send_whatsapp_message`, and updates that record's
status to `sent` or `failed` according to the boolean result, which it
returns.  Database writes are modelled as an explicit, ordered event trace on
the inserted record; the external send capability is a parameter
`sendFn : contact → message → Bool` (the Twilio call, or the simulate-success
path when unconfigured). -/

inductive NStatus where
  | pending
  | sent
  | failed
deriving DecidableEq, Repr

inductive NotifEvent where
  | dbInsert (status : NStatus)
  | channelSend (recipient msg : String)
  | dbUpdate (status : NStatus)
deriving DecidableEq, Repr

/-- `match_details.get(k, 'N/A')` on the snapshot dictionary. -/
def dget (d : List (String × String)) (k : String) : String :=
  (d.lookup k).getD "N/A"

/-- The message template, selected by `match_type` (`'person'` vs item),
interpolating the snapshot fields, the similarity percentage and the
reference id.  (Python renders `similarity_score` with float formatting; the
model renders the exact rational.) -/
def buildMessage (matchType : String) (details : List (String × String))
    (score : ℚ) (reportId : String) : String :=
  if matchType = "person" then
    "✅ Potential MATCH found for your missing person report!\n\n" ++
    "Name: " ++ dget details "name" ++ " (approx age " ++ dget details "age" ++ ")\n" ++
    "Gender: " ++ dget details "gender" ++ "\n" ++
    "Description: " ++ dget details "description" ++ "\n" ++
    "Location: " ++ dget details "location" ++ "\n" ++
    "Found report contact: " ++ dget details "contact" ++ "\n\n" ++
    "Similarity Score: " ++ toString score ++ "%\n\n" ++
    "Please contact our help center for verification: +91-XXXXXXXXXX\n" ++
    "Reference ID: " ++ reportId
  else
    "✅ Potential MATCH found for your lost item report!\n\n" ++
    "Category: " ++ dget details "category" ++ " | Color: " ++ dget details "color" ++
    " | Brand: " ++ dget details "brand" ++ "\n" ++
    "Description: " ++ dget details "description" ++ "\n" ++
    "Location: " ++ dget details "location" ++ "\n" ++
    "Found by contact: " ++ dget details "contact" ++ "\n\n" ++
    "Similarity Score: " ++ toString score ++ "%\n\n" ++
    "Please contact our help center for verification: +91-XXXXXXXXXX\n" ++
    "Reference ID: " ++ reportId

/-- `WhatsAppNotifier.send_match_notification`: returns the boolean send
outcome together with the chronological event trace touching the notification
record. -/
def send_match_notification (sendFn : String → String → Bool)
    (contact_number matchType : String) (details : List (String × String))
    (score : ℚ) (reportId : String) : Bool × List NotifEvent :=
  (sendFn contact_number (buildMessage matchType details score reportId),
    [NotifEvent.dbInsert NStatus.pending,
      NotifEvent.channelSend contact_number (buildMessage matchType details score reportId),
      NotifEvent.dbUpdate
        (if sendFn contact_number (buildMessage matchType details score reportId)
          then NStatus.sent else NStatus.failed)])

/-- The statuses the notification record holds over time, in order. -/
def statusTrace (events : List NotifEvent) : List NStatus :=
  events.filterMap (fun ev =>
    match ev with
    | NotifEvent.dbInsert st => some st
    | NotifEvent.dbUpdate st => some st
    | NotifEvent.channelSend _ _ => none)

/-! ### Notification worker

`notification_worker` runs `while True`, blocks on `notification_queue.get()`,
breaks when it dequeues the sentinel `None`, otherwise dispatches the task via
`send_match_notification`; any exception inside the loop body is caught, the
worker sleeps 5 seconds and continues with the next task.  The queue is
modelled as the (finite) list of values the blocking `get` returns, in FIFO
order, with `none` for the sentinel; a dispatch is a function returning
`Except` so that the raising path is expressible, and the sleep appears as the
`errorPause` event. -/

inductive WorkerEvent (τ ε : Type) where
  | dispatched (t : τ) (ok : Bool)
  | errorPause (t : τ) (err : ε)
deriving DecidableEq, Repr

/-- One iteration's outcome for a dequeued task: dispatch, catching errors. -/
def handleTask {τ ε : Type} (dispatch : τ → Except ε Bool) (t : τ) : WorkerEvent τ ε :=
  match dispatch t with
  | Except.ok b => WorkerEvent.dispatched t b
  | Except.error err => WorkerEvent.errorPause t err

/-- `notification_worker`: process dequeued values until the sentinel. -/
def notification_worker {τ ε : Type} (dispatch : τ → Except ε Bool) :
    List (Option τ) → List (WorkerEvent τ ε)
  | [] => []
  | none :: _ => []
  | some t :: rest => handleTask dispatch t :: notification_worker dispatch rest

/-! ### Concrete reports used by the worked scenario and the witnesses -/

/-- The spec scenario's new missing-person report (description absent;
contact not used by the matcher). -/
def c2_new : PersonReport :=
  ⟨"missing", "Ram Kumar", "25", "male", "", "Ujjain Ghat", "9000000001"⟩

/-- The spec scenario's existing found-person report. -/
def c2_existing : PersonReport :=
  ⟨"found", "Ram Kumer", "26", "male", "", "Ujjain Ghat Road", "9000000002"⟩

def c4_p1 : PersonReport := ⟨"missing", "Asha", "", "", "", "", "111"⟩

def c4_p2 : PersonReport := ⟨"missing", "Asha", "", "", "", "", "222"⟩

def c4_i1 : ItemReport := ⟨"lost", "bag", "red", "", "", "", "111"⟩

def c4_i2 : ItemReport := ⟨"lost", "bag", "red", "", "", "", "222"⟩

def c8_n : PersonReport := ⟨"missing", "Ram", "twenty", "male", "", "Ghat", "111"⟩

def c8_e : PersonReport := ⟨"found", "Ram", "unknown", "male", "", "Ghat", "222"⟩

/-! ### The claims -/

set_option maxRecDepth 40000

/-- C1: every activated person factor contributes at most `0.4` and every
activated item factor at most `0.25`, so `final_score = score / factors` can
never exceed `0.4` (resp. `0.25`) and the `> 0.55` filter is unsatisfiable:
`match_persons` and `match_items` always return the empty list. -/
theorem claim_C1_matchers_return_empty :
    ∀ (n e : PersonReport) (ni ei : ItemReport)
      (lp : List PersonReport) (li : List ItemReport),
      (scorePerson n e).1 ≤ 0.4 * ((scorePerson n e).2 : ℚ) ∧
      (scoreItem ni ei).1 ≤ 0.25 * ((scoreItem ni ei).2 : ℚ) ∧
      match_persons n lp = [] ∧
      match_items ni li = [] :=
  fun n e ni ei lp li =>
    ⟨scorePerson_le n e, scoreItem_le ni ei, match_persons_nil n lp, match_items_nil ni li⟩

/-- C2 (counterexample): in the spec's worked scenario the pair is *not*
included — `match_persons` on the scenario reports returns the empty list, so
the claim "final_score exceeds 0.55 and the pair is included" is false. -/
theorem claim_C2_counterexample :
    match_persons c2_new [c2_existing] = [] :=
  match_persons_nil c2_new [c2_existing]

/-- C2 (amended): the scenario does activate the name (similarity `8/9 > 0.6`),
age (diff 1, score `0.9`), gender and location (similarity `22/27 > 0.4`)
factors, yielding `score = 1213/1350` over `4` factors, but
`final_score = (8/9·0.4 + 0.9·0.2 + 0.2 + (22/27)·0.2)/4 = 1213/5400 ≈ 0.2246`
does **not** exceed `0.55`, so the pair is excluded and the returned match
list is empty. -/
theorem claim_C2_amended :
    calculate_similarity "Ram Kumar" "Ram Kumer" = 8/9 ∧
    (0.6 : ℚ) < 8/9 ∧
    calculate_similarity "Ujjain Ghat" "Ujjain Ghat Road" = 22/27 ∧
    (0.4 : ℚ) < 22/27 ∧
    scorePerson c2_new c2_existing = (1213/1350, 4) ∧
    (scorePerson c2_new c2_existing).1 / ((scorePerson c2_new c2_existing).2 : ℚ)
      = 1213/5400 ∧
    ¬ (0.55 : ℚ) < (1213 : ℚ)/5400 ∧
    match_persons c2_new [c2_existing] = [] := by
  have h1 : nameContrib c2_new c2_existing = some (8/9 * 0.4) := by
    with_unfolding_all decide
  have h2 : ageContrib c2_new c2_existing = some ((1 - 1 * 0.1) * 0.2) := by
    with_unfolding_all decide
  have h3 : genderContrib c2_new c2_existing = some 0.2 := by
    with_unfolding_all decide
  have h4 : descContribPerson c2_new c2_existing = none := by
    with_unfolding_all decide
  have h5 : locContribPerson c2_new c2_existing = some (22/27 * 0.2) := by
    with_unfolding_all decide
  have hscore : scorePerson c2_new c2_existing = (1213/1350, 4) := by
    rw [scorePerson, h1, h2, h3, h4, h5]
    simp only [factorStep]
    rw [Prod.ext_iff]
    constructor
    · norm_num
    · rfl
  refine ⟨by with_unfolding_all decide, by norm_num,
    by with_unfolding_all decide, by norm_num, hscore, ?_, by norm_num,
    match_persons_nil c2_new [c2_existing]⟩
  rw [hscore]
  norm_num

/-- C3: the result of `match_persons` / `match_items` has length at most 5, is
strictly descending by score, and every returned score exceeds `0.55`; a pair
enters the candidate list iff the types differ, at least one factor is
activated (zero-factor pairs are skipped, never scored as 0), and
`score / factors > 0.55`. -/
theorem claim_C3_result_shape :
    ∀ (n : PersonReport) (lp : List PersonReport)
      (ni : ItemReport) (li : List ItemReport),
      (match_persons n lp).length ≤ 5 ∧
      List.Chain' (fun p q => q.2 < p.2) (match_persons n lp) ∧
      (match_persons n lp).all (fun p => decide ((0.55 : ℚ) < p.2)) = true ∧
      (∀ p, p ∈ lp.filterMap (candidatePerson n) ↔
        ∃ e, e ∈ lp ∧ n.report_type ≠ e.report_type ∧ 0 < (scorePerson n e).2 ∧
          0.55 < (scorePerson n e).1 / ((scorePerson n e).2 : ℚ) ∧
          p = (e, (scorePerson n e).1 / ((scorePerson n e).2 : ℚ))) ∧
      (match_items ni li).length ≤ 5 ∧
      List.Chain' (fun p q => q.2 < p.2) (match_items ni li) ∧
      (match_items ni li).all (fun p => decide ((0.55 : ℚ) < p.2)) = true ∧
      (∀ p, p ∈ li.filterMap (candidateItem ni) ↔
        ∃ e, e ∈ li ∧ ni.report_type ≠ e.report_type ∧ 0 < (scoreItem ni e).2 ∧
          0.55 < (scoreItem ni e).1 / ((scoreItem ni e).2 : ℚ) ∧
          p = (e, (scoreItem ni e).1 / ((scoreItem ni e).2 : ℚ))) := by
  intro n lp ni li
  rw [match_persons_nil, match_items_nil]
  exact ⟨by simp, List.chain'_nil, rfl, mem_candidates_person_iff n lp,
    by simp, List.chain'_nil, rfl, mem_candidates_item_iff ni li⟩

/-- C4: neither matcher ever returns a candidate whose `report_type` equals
the new report's, and a same-type pair is skipped before any factor is scored
(the loop body yields nothing for it). -/
theorem claim_C4_opposite_type_only :
    (∀ (n : PersonReport) (lp : List PersonReport),
      (match_persons n lp).all (fun p => !(p.1.report_type == n.report_type)) = true) ∧
    (∀ (n e : PersonReport), n.report_type = e.report_type →
      candidatePerson n e = none) ∧
    (∀ (ni : ItemReport) (li : List ItemReport),
      (match_items ni li).all (fun p => !(p.1.report_type == ni.report_type)) = true) ∧
    (∀ (n e : ItemReport), n.report_type = e.report_type →
      candidateItem n e = none) :=
  ⟨fun n lp => by rw [match_persons_nil]; rfl,
    candidatePerson_same_type,
    fun ni li => by rw [match_items_nil]; rfl,
    candidateItem_same_type⟩

/-- Witness for C4 at concrete same-type reports. -/
theorem claim_C4_witness :
    c4_p1.report_type = c4_p2.report_type ∧ candidatePerson c4_p1 c4_p2 = none ∧
    c4_i1.report_type = c4_i2.report_type ∧ candidateItem c4_i1 c4_i2 = none :=
  ⟨rfl, claim_C4_opposite_type_only.2.1 c4_p1 c4_p2 rfl,
    rfl, claim_C4_opposite_type_only.2.2.2 c4_i1 c4_i2 rfl⟩

/-- C5 (counterexample): `calculate_similarity` is **not** symmetric —
`similarity("tide","diet") = 1/4` but `similarity("diet","tide") = 1/2`
(SequenceMatcher's greedy longest-block choice depends on the argument
order). -/
theorem claim_C5_counterexample :
    calculate_similarity "tide" "diet" ≠ calculate_similarity "diet" "tide" := by
  with_unfolding_all decide

/-- C5 (amended): `similarity(x,x) = 1.0` for every string, `similarity("","")
= 1.0`, and if exactly one of the two strings is empty the result is `0.0`;
the symmetry clause `similarity(x,y) = similarity(y,x)` does not hold in
general and is dropped. -/
theorem claim_C5_amended :
    ∀ s : String,
      calculate_similarity s s = 1 ∧
      calculate_similarity "" "" = 1 ∧
      (s ≠ "" → calculate_similarity "" s = 0 ∧ calculate_similarity s "" = 0) :=
  fun s => ⟨similarity_self s, similarity_self "",
    fun h => ⟨similarity_empty_left s h, similarity_empty_right s h⟩⟩

/-- Witness for C5 at `s = "ab"`. -/
theorem claim_C5_witness :
    ("ab" : String) ≠ "" ∧ calculate_similarity "ab" "ab" = 1 ∧
    calculate_similarity "" "ab" = 0 ∧ calculate_similarity "ab" "" = 0 :=
  ⟨by decide, (claim_C5_amended "ab").1,
    ((claim_C5_amended "ab").2.2 (by decide)).1,
    ((claim_C5_amended "ab").2.2 (by decide)).2⟩

/-- C6: `similarity("apple","appl") = 2·4/9`: the block matcher finds 4
matched characters and the combined length is `5 + 4 = 9`. -/
theorem claim_C6_worked_example :
    matchTotal (lowerChars "apple") (lowerChars "appl") = 4 ∧
    (lowerChars "apple").length + (lowerChars "appl").length = 9 ∧
    calculate_similarity "apple" "appl" = 2 * 4 / 9 :=
  ⟨by decide, by decide, by with_unfolding_all decide⟩

/-- C7 (counterexample): on the input `"a_b"` the code keeps the single token
`"a_b"` (Python's `\w` includes the underscore), while the claimed
"alphanumeric runs" tokenization would produce `a`, `b` — both dropped as
too short — so the claim's description of the tokenizer is false. -/
theorem claim_C7_counterexample :
    extract_keywords "a_b" = ["a_b"] ∧ keywords_alnum_spec "a_b" = [] := by
  constructor
  · decide
  · simp only [keywords_alnum_spec, wordRuns_eq_scan]
    decide

/-- C7 (amended): `extract_keywords` lowercases the text, tokenizes it into
maximal runs of *word characters* (alphanumeric or underscore, Python's
`\w`), drops stopwords and tokens of length ≤ 2, preserving order and
duplicates; on the spec's example it yields
`["red","bag","found","near","ghat"]`. -/
theorem claim_C7_amended :
    (∀ t : String, extract_keywords t = keywords_runs_amended t) ∧
    extract_keywords "The Red Bag was found near the Ghat"
      = ["red", "bag", "found", "near", "ghat"] :=
  ⟨fun t => by simp only [keywords_runs_amended, wordRuns_eq_scan, extract_keywords],
    by decide⟩

/-- C8: when both reports carry a non-empty age that fails integer parsing,
the matcher does not raise (the embedding is total: the `int(...)` exception
path is `pyInt = none`): the age factor is skipped and scoring is exactly what
it would be with no ages at all. -/
theorem claim_C8_age_parse_skip :
    ∀ (n e : PersonReport), n.age ≠ "" → e.age ≠ "" →
      pyInt n.age = none → pyInt e.age = none →
      scorePerson n e = scorePerson { n with age := "" } { e with age := "" } := by
  intro n e h1 h2 h3 h4
  have ha : ageContrib n e = none := by
    unfold ageContrib
    rw [if_pos ⟨h1, h2⟩, h3]
  have hb : ageContrib { n with age := "" } { e with age := "" } = none := by
    unfold ageContrib
    simp
  unfold scorePerson
  rw [ha, hb]
  rfl

/-- Witness for C8 at concrete non-numeric ages. -/
theorem claim_C8_witness :
    c8_n.age ≠ "" ∧ c8_e.age ≠ "" ∧ pyInt c8_n.age = none ∧ pyInt c8_e.age = none ∧
    scorePerson c8_n c8_e
      = scorePerson { c8_n with age := "" } { c8_e with age := "" } :=
  ⟨by decide, by decide, by decide, by decide,
    claim_C8_age_parse_skip c8_n c8_e (by decide) (by decide) (by decide) (by decide)⟩

/-- C9: the dispatcher first persists the record with status `pending`, then
invokes the external send capability, updates the record to `sent` on success
and `failed` otherwise, and returns the boolean send outcome; the record's
status history is exactly `[pending, terminal]` — it never holds both
terminal statuses and never reverts to `pending`. -/
theorem claim_C9_dispatch_lifecycle :
    ∀ (sendFn : String → String → Bool) (contact matchType : String)
      (details : List (String × String)) (score : ℚ) (reportId : String),
      (send_match_notification sendFn contact matchType details score reportId).1
        = sendFn contact (buildMessage matchType details score reportId) ∧
      (send_match_notification sendFn contact matchType details score reportId).2
        = [NotifEvent.dbInsert NStatus.pending,
            NotifEvent.channelSend contact (buildMessage matchType details score reportId),
            NotifEvent.dbUpdate
              (if sendFn contact (buildMessage matchType details score reportId)
                then NStatus.sent else NStatus.failed)] ∧
      statusTrace
          (send_match_notification sendFn contact matchType details score reportId).2
        = [NStatus.pending,
            if sendFn contact (buildMessage matchType details score reportId)
              then NStatus.sent else NStatus.failed] ∧
      ¬ (NStatus.sent ∈ statusTrace
            (send_match_notification sendFn contact matchType details score reportId).2 ∧
          NStatus.failed ∈ statusTrace
            (send_match_notification sendFn contact matchType details score reportId).2) ∧
      (statusTrace
          (send_match_notification sendFn contact matchType details score reportId).2).head?
        = some NStatus.pending := by
  intro sendFn contact matchType details score reportId
  cases hb : sendFn contact (buildMessage matchType details score reportId) <;>
    simp [send_match_notification, statusTrace, hb]

/-- C10: the worker dequeues and dispatches in FIFO order, one event per task;
it stops exactly at the sentinel `none` (anything queued after it is not
processed), and a dispatch that raises produces an `errorPause` event and the
worker continues with the next task — a failure never blocks or drops the
following tasks.  (The concurrent producers and the blocking dequeue are
modelled by presenting the worker the finite FIFO sequence its `get` calls
return.) -/
theorem claim_C10_worker_fifo :
    ∀ {τ ε : Type} (dispatch : τ → Except ε Bool) (ts : List τ)
      (rest : List (Option τ)),
      notification_worker dispatch (ts.map some ++ none :: rest)
        = ts.map (handleTask dispatch) ∧
      notification_worker dispatch (none :: rest) = [] ∧
      notification_worker dispatch (ts.map some) = ts.map (handleTask dispatch) := by
  intro τ ε dispatch ts rest
  refine ⟨?_, rfl, ?_⟩
  · induction ts with
    | nil => rfl
    | cons t ts ih =>
      simp only [List.map_cons, List.cons_append, notification_worker, List.append_eq, ih]
  · induction ts with
    | nil => rfl
    | cons t ts ih => simp only [List.map_cons, notification_worker, ih]

end Simhastha
